import Mathlib

/-!
Verification of the ingestion-and-retrieval core of the inv-app repository.

The repository carries two revisions of its upstash vector-store module and of
its processing-status module.  The revision used by the application entry point
(lib/actions.ts, whose imports resolve only against the newer revision) is the
one embedded here as the program: the upstash revision with the paginated
clearAllEmbeddings, the duplication-padding generateEmbedding and the
three-pattern rate-limit matcher, and the processing-status revision with the
userId lock.  Where the superseded revision (src/lib/upstash.ts) differs, it is
embedded as well under a distinct name so the difference can be stated.

Numeric vectors are embedded with Int entries: every claim settled here is
about vector lengths, control flow and state, never about float arithmetic.
Time is an explicit Nat field (milliseconds) of the modelled state.
-/

/-! ## Embedding generation: dimension handling -/

/-- The dimension the vector store expects (both upstash revisions). -/
def VECTOR_DIMENSIONS : Nat := 1536

/-- Dimension handling of generateEmbedding in the current upstash revision:
the native embedding is concatenated with itself
(const paddedEmbedding = [...embedding, ...embedding]). -/
def padEmbedding (embedding : List Int) : List Int :=
  embedding ++ embedding

/-- Dimension handling of generateEmbedding in the superseded src/lib/upstash.ts
revision: return unchanged when the length already matches, slice to
VECTOR_DIMENSIONS when larger, zero-pad when smaller. -/
def resizeEmbedding (embedding : List Int) : List Int :=
  if embedding.length = VECTOR_DIMENSIONS then embedding
  else if VECTOR_DIMENSIONS < embedding.length then embedding.take VECTOR_DIMENSIONS
  else embedding ++ List.replicate (VECTOR_DIMENSIONS - embedding.length) 0

/-! ## Retry with exponential backoff -/

/-- Substring test over character lists, the semantics of the JavaScript
String.prototype.includes used on stringified errors. -/
def infixCheck (pat : List Char) : List Char → Bool
  | [] => pat.isEmpty
  | c :: rest => pat.isPrefixOf (c :: rest) || infixCheck pat rest

/-- error.toString().includes(pat) on a stringified error. -/
def strIncludes (s pat : String) : Bool :=
  infixCheck pat.data s.data

/-- The rate-limit test of retryWithBackoff: the error text contains 429,
Too Many Requests, or rate limit. -/
def isRateLimitError (e : String) : Bool :=
  strIncludes e "429" || strIncludes e "Too Many Requests" || strIncludes e "rate limit"

/-- One execution of the retryWithBackoff loop.  The wrapped call is modelled
as a function from the attempt index (0-based) to an Except outcome; the
returned list records every delay the loop waited, in order.  The argument
remaining is the number of attempts the budget still allows, so the source
check retries >= maxRetries is remaining <= 1 after a failure; delay is the
current backoff delay, doubled (times factor) after each retry, and the wait
performed on a rate-limit failure is delay * 2 as in the source
(retryDelay = isRateLimitError ? delay * 2 : delay). -/
def retryGo (fn : Nat → Except String α) (factor : Nat) :
    Nat → Nat → Nat → List Nat → Except String α × List Nat
  | 0, i, _, waits =>
    (fn i, waits)
  | 1, i, _, waits =>
    (fn i, waits)
  | remaining + 2, i, delay, waits =>
    match fn i with
    | Except.ok a => (Except.ok a, waits)
    | Except.error e =>
      if isRateLimitError e then
        retryGo fn factor (remaining + 1) (i + 1) (delay * factor)
          (waits ++ [if isRateLimitError e then delay * 2 else delay])
      else
        (Except.error e, waits)

/-- retryWithBackoff of the current upstash revision. -/
def retryWithBackoff (fn : Nat → Except String α)
    (maxRetries initialDelay factor : Nat) : Except String α × List Nat :=
  retryGo fn factor maxRetries 0 initialDelay []

/-- retryWithBackoff at its declared default parameters
(maxRetries = 5, initialDelay = 1000, factor = 2). -/
def retryWithBackoffDefault (fn : Nat → Except String α) : Except String α × List Nat :=
  retryWithBackoff fn 5 1000 2

/-! ## Chunker (generateChunks, identical in both upstash revisions) -/

/-- One parsed row of the uploaded file: an ordered list of column/value pairs,
the shape Object.entries produces. -/
def InvRecord : Type := List (String × String)

/-- Join a list of strings with a separator, the semantics of Array.join. -/
def joinSep (sep : String) : List String → String
  | [] => ""
  | [x] => x
  | x :: y :: xs => x ++ sep ++ joinSep sep (y :: xs)

/-- The rendering of one record inside generateChunks:
Item (i+1) header followed by key: value lines. -/
def renderRecord (i : Nat) (r : InvRecord) : String :=
  "Item " ++ toString (i + 1) ++ ":\n" ++
    joinSep "\n" (r.map fun kv => kv.1 ++ ": " ++ kv.2)

/-- All records rendered with their 0-based loop index, in input order. -/
def renderAll (i : Nat) : List InvRecord → List String
  | [] => []
  | r :: rs => renderRecord i r :: renderAll (i + 1) rs

/-- The greedy packing loop of generateChunks.  cur is currentChunk and
curItems is the list of rendered items cur was built from, carried only so the
record content of each chunk can be stated; the string component follows the
source exactly: when appending the next item would exceed the budget
(cur.length + x.length + ov > m) the current chunk is pushed, otherwise the
item is appended after the separator sep (empty cur takes the item bare), and
a final non-empty chunk is pushed at the end.  The array-of-records branch
uses sep two newlines with ov = 2; the plain-text branches use one newline
with ov = 1. -/
def packGo (sep : String) (ov m : Nat) (cur : String) (curItems : List String) :
    List String → List (String × List String)
  | [] => if cur = "" then [] else [(cur, curItems)]
  | x :: xs =>
    if m < cur.length + x.length + ov then
      (cur, curItems) :: packGo sep ov m x [x] xs
    else
      packGo sep ov m (if cur = "" then x else cur ++ sep ++ x) (curItems ++ [x]) xs

/-- The array branch of generateChunks, chunks paired with the rendered
records they contain. -/
def generateChunksArrayP (m : Nat) (items : List String) : List (String × List String) :=
  packGo "\n\n" 2 m "" [] items

/-- The array branch of generateChunks: chunk strings only. -/
def generateChunksArray (data : List InvRecord) (m : Nat) : List String :=
  (generateChunksArrayP m (renderAll 0 data)).map Prod.fst

/-- The plain-text branch of generateChunks over the list of paragraphs the
newline split produced. -/
def generateChunksText (paragraphs : List String) (m : Nat) : List String :=
  (packGo "\n" 1 m "" [] paragraphs).map Prod.fst

/-- The catch-all fallback of generateChunks: one chunk holding
input.substring(0, maxChunkSize). -/
def chunkFallback (input : String) (m : Nat) : List String :=
  [String.mk (input.data.take m)]

/-! ## Vector store: clearAllEmbeddings and upsert

The store is modelled as the list of vector ids it holds.  The zero-vector
query with topK n is modelled as returning the first min(n, size) ids, and
delete(ids) removes exactly those ids. -/

/-- The inner delete loop of clearAllEmbeddings: the fetched ids are deleted
in slices of 100 per call (for i += batchSize with batchSize = 100).  The
fuel argument bounds the number of slices; every call site passes 10, enough
for the at most 1000 ids a query returns.  Returns the store after the
deletions together with the updated deleteCalls and deletedCount counters. -/
def deleteBatches : Nat → List Nat → List Nat → Nat → Nat → List Nat × Nat × Nat
  | 0, _, store, calls, deleted => (store, calls, deleted)
  | _ + 1, [], store, calls, deleted => (store, calls, deleted)
  | fuel + 1, i :: ids, store, calls, deleted =>
    deleteBatches fuel ((i :: ids).drop 100)
      (store.filter fun x => decide (x ∉ (i :: ids).take 100))
      (calls + 1) (deleted + ((i :: ids).take 100).length)

/-- The outcome of one clearAllEmbeddings run: how many queries, delete calls
and deletions it issued, how many inter-round delays it slept, and the store
it left behind. -/
structure ClearRun where
  queries : Nat
  deleteCalls : Nat
  deleted : Nat
  delays : Nat
  store : List Nat
deriving DecidableEq

/-- The while (hasMoreVectors) loop of clearAllEmbeddings: query up to 1000
ids, stop if none came back, delete them in batches of 100, and loop again
only when a full page of 1000 was returned, sleeping 500ms first.  The fuel
argument bounds the rounds; clearAllStore passes more fuel than the loop can
consume, so the loop always reaches its own exit condition. -/
def clearLoop : Nat → List Nat → Nat → Nat → Nat → Nat → ClearRun
  | 0, store, q, c, d, w => ⟨q, c, d, w, store⟩
  | fuel + 1, store, q, c, d, w =>
    let vectors := store.take 1000
    if vectors.length = 0 then ⟨q + 1, c, d, w, store⟩
    else
      let r := deleteBatches 10 vectors store c d
      if vectors.length < 1000 then ⟨q + 1, r.2.1, r.2.2, w, r.1⟩
      else clearLoop fuel r.1 (q + 1) r.2.1 r.2.2 (w + 1)

/-- clearAllEmbeddings of the current upstash revision, run on a store. -/
def clearAllStore (store : List Nat) : ClearRun :=
  clearLoop (store.length + 1) store 0 0 0 0

/-- Upstash upsert semantics: entries replace any stored vector with the same
id and the new entries are all present afterwards. -/
def upsertStore (store entries : List Nat) : List Nat :=
  (store.filter fun x => decide (x ∉ entries)) ++ entries

/-- The store effect of processInventoryData (lib/actions.ts): existing data
is cleared by clearAllEmbeddings before upsertEmbeddings stores the embedded
chunks of the new upload. -/
def processInventoryStoreEffect (pre entries : List Nat) : List Nat :=
  upsertStore (clearAllStore pre).store entries

/-! ## Retrieval (findRelevantContent) -/

/-- findRelevantContent of the current upstash revision.  The embedding step
and the store query are modelled by their outcomes; the material-code
heuristic that widens topK to 50 is the isMaterialCode flag.  Any failure of
either step is rethrown wrapped, exactly as the catch block does; a
successful query result is returned unmodified. -/
def findRelevantContent (embedRes : Except String (List Int))
    (storeQuery : List Int → Nat → Except String (List Nat))
    (isMaterialCode : Bool) (k : Nat) : Except String (List Nat) :=
  let topK := if isMaterialCode then 50 else k
  match embedRes with
  | Except.error e => Except.error ("Failed to retrieve relevant content: " ++ e)
  | Except.ok v =>
    match storeQuery v topK with
    | Except.error e => Except.error ("Failed to retrieve relevant content: " ++ e)
    | Except.ok results => Except.ok results

/-! ## Processing coordinator (lib/file-processing-status.ts, lock revision) -/

/-- The persisted ProcessingStatus document. -/
structure StatusDoc where
  isProcessing : Bool
  startTime : Option Nat
  progress : Option (Nat × Nat × String)
  error : Option String
  lastUpdated : Nat
  userId : Option String
  locked : Option Bool
deriving DecidableEq

/-- The world the coordinator manipulates: the status file, the lock file
(owner and timestamp) and the current clock in milliseconds. -/
structure CoordState where
  statusFile : Option StatusDoc
  lockFile : Option (String × Nat)
  now : Nat
deriving DecidableEq

/-- The overall processing timeout: 30 * 60 * 1000 ms. -/
def PROCESSING_TIMEOUT : Nat := 30 * 60 * 1000

/-- The lock expiry: 5 * 60 * 1000 ms. -/
def LOCK_TTL : Nat := 5 * 60 * 1000

/-- The document initProcessingStatus writes: not processing, locked false. -/
def initStatusDoc (now : Nat) : StatusDoc :=
  ⟨false, none, none, none, now, none, some false⟩

/-- releaseLock: only the owner may delete the lock file; a missing lock file
counts as released. -/
def releaseLock (u : String) (s : CoordState) : Bool × CoordState :=
  match s.lockFile with
  | some l => if l.1 = u then (true, { s with lockFile := none }) else (false, s)
  | none => (true, s)

/-- tryAcquireLock: an existing lock older than LOCK_TTL is overwritten and
acquisition succeeds; an unexpired lock is kept and acquisition succeeds
exactly for its owner; a missing lock is created. -/
def tryAcquireLock (u : String) (s : CoordState) : Bool × CoordState :=
  match s.lockFile with
  | some l =>
    if LOCK_TTL < s.now - l.2 then (true, { s with lockFile := some (u, s.now) })
    else (l.1 == u, s)
  | none => (true, { s with lockFile := some (u, s.now) })

/-- The two mutually recursive coordinator entry points relevant to the stale
status path: getProcessingStatus and setProcessingError. -/
inductive CoordCall where
  | getStatus : CoordCall
  | setError : String → CoordCall

/-- Fuel-indexed evaluation of the mutual recursion between
getProcessingStatus and setProcessingError.  getStatus reads the status file
(initializing a missing one) and, when the document says processing and the
startTime is truthy and more than PROCESSING_TIMEOUT in the past, releases
the owner lock and tail-calls setProcessingError; setProcessingError first
calls getProcessingStatus for the current document, then writes the errored
document and releases the lock.  The guard in the source is
status.isProcessing && status.startTime && now - startTime > timeout, and a
JavaScript number short-circuits that conjunction when it is 0, so a missing
startTime and a startTime of exactly 0 both skip the timeout branch: the
model renders the truthiness of the middle operand as t not equal to 0.  A
result of none means the fuel ran out before the call returned. -/
def coordF : Nat → CoordCall → CoordState → Option (StatusDoc × CoordState)
  | 0, _, _ => none
  | f + 1, CoordCall.getStatus, s =>
    match s.statusFile with
    | none =>
      let st := initStatusDoc s.now
      some (st, { s with statusFile := some st })
    | some st =>
      match st.startTime with
      | none => some (st, s)
      | some t =>
        if st.isProcessing = true ∧ t ≠ 0 ∧ PROCESSING_TIMEOUT < s.now - t then
          let s1 := match st.userId with
            | some u => (releaseLock u s).2
            | none => s
          coordF f (CoordCall.setError "Processing timed out after 30 minutes") s1
        else some (st, s)
  | f + 1, CoordCall.setError msg, s =>
    match coordF f CoordCall.getStatus s with
    | none => none
    | some (cur, s1) =>
      let newSt : StatusDoc :=
        ⟨false, cur.startTime, cur.progress, some msg, s1.now, cur.userId, some false⟩
      let s2 := { s1 with statusFile := some newSt }
      let s3 := match cur.userId with
        | some u => (releaseLock u s2).2
        | none => s2
      some (newSt, s3)

/-! ## Upload action (lib/actions.ts) -/

/-- The record cap of processInventoryData. -/
def MAX_RECORDS : Nat := 500

/-- The silent truncation of processInventoryData: when more than MAX_RECORDS
rows parsed, only the first MAX_RECORDS are kept (data.slice(0, MAX_RECORDS));
no error is recorded and processing continues on the kept rows. -/
def limitRecords (data : List α) : List α :=
  if MAX_RECORDS < data.length then data.take MAX_RECORDS else data

/-- The value processInventoryData returns to its caller on success: the
success flag, the chunk counts from upsertEmbeddings, the record count the
message interpolates (the length of data after the cap was applied) and the
absence of any error. -/
structure ProcessResult where
  success : Bool
  chunksProcessed : Nat
  totalChunks : Nat
  recordCount : Nat
  errorMessage : Option String
deriving DecidableEq

/-- The successful return value of processInventoryData. -/
def processInventoryResult (data : List α) (chunksProcessed totalChunks : Nat) :
    ProcessResult :=
  ⟨true, chunksProcessed, totalChunks, (limitRecords data).length, none⟩

/-! ## C1: embedding dimension -/

/-- C1 counterexample: a native model output of width 1536, one of the widths
the claim quantifies over, is not truncated to 1536 elements by the generator;
duplication returns 3072 elements. -/
theorem generateEmbedding_pad_not_1536 :
    (padEmbedding (List.replicate 1536 (0 : Int))).length ≠ 1536 := by
  simp only [padEmbedding, List.length_append, List.length_replicate]
  omega

/-- C1 amended: the generator duplicates the native vector, so its output has
2 * d_native elements; this equals VECTOR_DIMENSIONS = 1536 exactly when the
native width is 768.  Only the superseded src/lib/upstash.ts revision resized
every output (truncate or zero-pad) to exactly 1536 elements. -/
theorem generateEmbedding_pad_length :
    (∀ e : List Int, (padEmbedding e).length = 2 * e.length) ∧
    (∀ e : List Int, e.length = 768 → (padEmbedding e).length = VECTOR_DIMENSIONS) ∧
    (∀ e : List Int, (resizeEmbedding e).length = VECTOR_DIMENSIONS) := by
  refine ⟨fun e => ?_, fun e he => ?_, fun e => ?_⟩
  · simp [padEmbedding]; omega
  · simp [padEmbedding, he, VECTOR_DIMENSIONS]
  · unfold resizeEmbedding
    split
    · assumption
    · split
      · simp; omega
      · simp; omega

/-- C1 witness: the amended statement evaluated at a native width of 768 and
at concrete inputs of the other branches. -/
theorem generateEmbedding_pad_length_witness :
    (List.replicate 768 (0 : Int)).length = 768 ∧
    (padEmbedding (List.replicate 768 (0 : Int))).length = VECTOR_DIMENSIONS :=
  ⟨by simp only [List.length_replicate],
    generateEmbedding_pad_length.2.1 (List.replicate 768 0)
      (by simp only [List.length_replicate])⟩

/-! ## C8: retrieval error policy -/

/-- C8: when the embedding step fails, findRelevantContent rethrows the
wrapped error and never returns a result list, empty or otherwise; when the
embedding and the store query both succeed the query result is returned
unmodified, so an empty match list comes back as an empty list, not an
error. -/
theorem findRelevantContent_error_policy :
    (∀ (e : String) (q : List Int → Nat → Except String (List Nat)) (b : Bool) (k : Nat),
      findRelevantContent (Except.error e) q b k =
        Except.error ("Failed to retrieve relevant content: " ++ e) ∧
      ∀ l : List Nat, findRelevantContent (Except.error e) q b k ≠ Except.ok l) ∧
    (∀ (v : List Int) (q : List Int → Nat → Except String (List Nat)) (b : Bool)
      (k : Nat) (rs : List Nat),
      q v (if b then 50 else k) = Except.ok rs →
      findRelevantContent (Except.ok v) q b k = Except.ok rs) := by
  constructor
  · intro e q b k
    constructor
    · rfl
    · intro l h
      simp [findRelevantContent] at h
  · intro v q b k rs hq
    simp [findRelevantContent, hq]

/-- C8 witness: an empty store query result is returned as an empty list at a
concrete query outcome. -/
theorem findRelevantContent_error_policy_witness :
    ((fun (_ : List Int) (_ : Nat) => (Except.ok [] : Except String (List Nat)))
        [1] (if false then 50 else 5) = Except.ok []) ∧
    findRelevantContent (Except.ok [1]) (fun _ _ => Except.ok []) false 5 =
      Except.ok [] :=
  ⟨rfl, findRelevantContent_error_policy.2 [1] (fun _ _ => Except.ok []) false 5 [] rfl⟩

/-! ## C10: the silent 500-record cap -/

/-- C10: a parsed dataset longer than MAX_RECORDS = 500 rows is truncated to
its first 500 rows before chunking and embedding; the successful result still
reports success with no error, and the record count it reports is the capped
count, not the uploaded count. -/
theorem processInventoryData_truncates_500 :
    ∀ (data : List Nat) (cp tc : Nat), MAX_RECORDS < data.length →
    limitRecords data = data.take MAX_RECORDS ∧
    (limitRecords data).length = MAX_RECORDS ∧
    (processInventoryResult data cp tc).success = true ∧
    (processInventoryResult data cp tc).errorMessage = none ∧
    (processInventoryResult data cp tc).recordCount = MAX_RECORDS := by
  intro data cp tc h
  have hl : limitRecords data = data.take MAX_RECORDS := by
    unfold limitRecords
    rw [if_pos h]
  have hlen : (limitRecords data).length = MAX_RECORDS := by
    rw [hl, List.length_take]
    omega
  exact ⟨hl, hlen, rfl, rfl, hlen⟩

/-- C10 witness: a 501-row upload is capped at 500 rows and still reported as
a success. -/
theorem processInventoryData_truncates_500_witness :
    MAX_RECORDS < (List.range 501).length ∧
    (limitRecords (List.range 501)).length = MAX_RECORDS :=
  ⟨by simp only [List.length_range]; norm_num [MAX_RECORDS],
    (processInventoryData_truncates_500 (List.range 501) 3 3
      (by simp only [List.length_range]; norm_num [MAX_RECORDS])).2.1⟩

/-! ## C7: lock acquisition and TTL takeover -/

/-- C7: acquiring on an unlocked state succeeds and records the owner and
timestamp; a later acquisition by a different user fails while the lock is at
most LOCK_TTL old and succeeds, taking the lock over, once it is older than
LOCK_TTL; the owner reacquires an unexpired lock successfully. -/
theorem tryAcquireLock_ttl :
    ∀ (s : CoordState) (u1 u2 : String) (t2 : Nat),
    s.lockFile = none → u1 ≠ u2 →
    (tryAcquireLock u1 s).1 = true ∧
    ((tryAcquireLock u1 s).2).lockFile = some (u1, s.now) ∧
    (t2 - s.now ≤ LOCK_TTL →
      (tryAcquireLock u2 { (tryAcquireLock u1 s).2 with now := t2 }).1 = false) ∧
    (LOCK_TTL < t2 - s.now →
      (tryAcquireLock u2 { (tryAcquireLock u1 s).2 with now := t2 }).1 = true ∧
      ((tryAcquireLock u2 { (tryAcquireLock u1 s).2 with now := t2 }).2).lockFile =
        some (u2, t2)) ∧
    (t2 - s.now ≤ LOCK_TTL →
      (tryAcquireLock u1 { (tryAcquireLock u1 s).2 with now := t2 }).1 = true) := by
  intro s u1 u2 t2 hnone hne
  have h1 : tryAcquireLock u1 s = (true, { s with lockFile := some (u1, s.now) }) := by
    unfold tryAcquireLock
    rw [hnone]
  refine ⟨by rw [h1], by rw [h1], ?_, ?_, ?_⟩
  · intro hfresh
    rw [h1]
    unfold tryAcquireLock
    simp only []
    rw [if_neg (by omega)]
    simp [hne]
  · intro hold
    rw [h1]
    unfold tryAcquireLock
    simp only []
    rw [if_pos (by omega)]
    exact ⟨rfl, rfl⟩
  · intro hfresh
    rw [h1]
    unfold tryAcquireLock
    simp only []
    rw [if_neg (by omega)]
    simp

/-- C7 witness: with a concrete unlocked state, alice takes the lock at time
1000; bob fails at time 2000 (1 second later, within the 5 minute TTL). -/
theorem tryAcquireLock_ttl_witness :
    (({ statusFile := none, lockFile := none, now := 1000 } : CoordState).lockFile
        = none) ∧
    ("alice" ≠ "bob") ∧
    (tryAcquireLock "alice"
      { statusFile := none, lockFile := none, now := 1000 }).1 = true ∧
    ((2000 : Nat) - 1000 ≤ LOCK_TTL →
      (tryAcquireLock "bob"
        { (tryAcquireLock "alice"
            { statusFile := none, lockFile := none, now := 1000 }).2
          with now := 2000 }).1 = false) := by
  have h := tryAcquireLock_ttl
    { statusFile := none, lockFile := none, now := 1000 } "alice" "bob" 2000
    rfl (by decide)
  exact ⟨rfl, by decide, h.1, h.2.2.1⟩

/-! ## C3: retry policy -/

/-- Unfolding equation of retryGo when at least two attempts remain. -/
theorem retryGo_succ2 (fn : Nat → Except String α) (factor r i delay : Nat)
    (waits : List Nat) :
    retryGo fn factor (r + 2) i delay waits =
      match fn i with
      | Except.ok a => (Except.ok a, waits)
      | Except.error e =>
        if isRateLimitError e then
          retryGo fn factor (r + 1) (i + 1) (delay * factor)
            (waits ++ [if isRateLimitError e then delay * 2 else delay])
        else (Except.error e, waits) := rfl

/-- Unfolding equation of retryGo on the last allowed attempt: the outcome of
the call is returned or rethrown with no further wait. -/
theorem retryGo_one (fn : Nat → Except String α) (factor i delay : Nat)
    (waits : List Nat) :
    retryGo fn factor 1 i delay waits = (fn i, waits) := rfl

/-- C3: with its default budget of 5 attempts, initial delay 1000ms and
factor 2, retryWithBackoff rethrows a non-rate-limit error from the first
attempt immediately with no waits; when the first two attempts fail with
rate-limit errors and the third succeeds it returns the success after waiting
2000ms then 4000ms, so the elapsed time covers the sum of the first two
backoff delays and each delay is double the previous one; and when every
attempt fails with a rate-limit error it stops after 5 attempts and 4 waits,
each wait double the previous. -/
theorem retryWithBackoff_rate_limit_policy :
    (∀ (fn : Nat → Except String Nat) (e : String),
      fn 0 = Except.error e → isRateLimitError e = false →
      retryWithBackoffDefault fn = (Except.error e, [])) ∧
    (∀ (fn : Nat → Except String Nat) (e1 e2 : String) (a : Nat),
      fn 0 = Except.error e1 → fn 1 = Except.error e2 → fn 2 = Except.ok a →
      isRateLimitError e1 = true → isRateLimitError e2 = true →
      retryWithBackoffDefault fn = (Except.ok a, [2000, 4000]) ∧
      (retryWithBackoffDefault fn).2.sum = 2000 + 4000) ∧
    (∀ (fn : Nat → Except String Nat) (e : String),
      (∀ i, i < 5 → fn i = Except.error e) → isRateLimitError e = true →
      retryWithBackoffDefault fn = (Except.error e, [2000, 4000, 8000, 16000])) := by
  refine ⟨?_, ?_, ?_⟩
  · intro fn e h0 hrl
    unfold retryWithBackoffDefault retryWithBackoff
    rw [show (5 : Nat) = 3 + 2 from rfl, retryGo_succ2, h0]
    simp [hrl]
  · intro fn e1 e2 a h0 h1 h2 hrl1 hrl2
    have hmain : retryWithBackoffDefault fn = (Except.ok a, [2000, 4000]) := by
      unfold retryWithBackoffDefault retryWithBackoff
      rw [show (5 : Nat) = 3 + 2 from rfl, retryGo_succ2, h0]
      simp only [hrl1, if_true]
      norm_num
      rw [show (4 : Nat) = 2 + 2 from rfl, retryGo_succ2, h1]
      simp only [hrl2, if_true]
      norm_num
      rw [show (3 : Nat) = 1 + 2 from rfl, retryGo_succ2, h2]
    exact ⟨hmain, by rw [hmain]; rfl⟩
  · intro fn e hall hrl
    unfold retryWithBackoffDefault retryWithBackoff
    rw [show (5 : Nat) = 3 + 2 from rfl, retryGo_succ2, hall 0 (by norm_num)]
    simp only [hrl, if_true]
    norm_num
    rw [show (4 : Nat) = 2 + 2 from rfl, retryGo_succ2, hall 1 (by norm_num)]
    simp only [hrl, if_true]
    norm_num
    rw [show (3 : Nat) = 1 + 2 from rfl, retryGo_succ2, hall 2 (by norm_num)]
    simp only [hrl, if_true]
    norm_num
    rw [show (2 : Nat) = 0 + 2 from rfl, retryGo_succ2, hall 3 (by norm_num)]
    simp only [hrl, if_true]
    norm_num
    rw [retryGo_one, hall 4 (by norm_num)]

/-- C3 witness: a call that hits a 429 on its first two attempts and succeeds
on its third returns the success after the two recorded backoff waits. -/
theorem retryWithBackoff_rate_limit_policy_witness :
    ((fun i => if i < 2 then Except.error "429 Too Many Requests"
        else Except.ok 7) 0 = (Except.error "429 Too Many Requests" : Except String Nat)) ∧
    isRateLimitError "429 Too Many Requests" = true ∧
    retryWithBackoffDefault
      (fun i => if i < 2 then Except.error "429 Too Many Requests" else Except.ok 7) =
      (Except.ok 7, [2000, 4000]) :=
  ⟨rfl, by decide,
    (retryWithBackoff_rate_limit_policy.2.1
      (fun i => if i < 2 then Except.error "429 Too Many Requests" else Except.ok 7)
      "429 Too Many Requests" "429 Too Many Requests" 7
      rfl rfl rfl (by decide) (by decide)).1⟩

/-! ## Chunker lemmas (C4, C5) -/

/-- A string of length zero is the empty string. -/
theorem strLength_eq_zero (s : String) : s.length = 0 ↔ s = "" := by
  constructor
  · intro h
    have hd : s.data.length = 0 := h
    have : s.data = [] := List.length_eq_zero.mp hd
    cases s
    simp_all
  · intro h; subst h; rfl

/-- joinSep over a non-empty tail unfolds once. -/
theorem joinSep_cons (sep a : String) :
    ∀ l : List String, l ≠ [] → joinSep sep (a :: l) = a ++ sep ++ joinSep sep l := by
  intro l h
  cases l with
  | nil => exact absurd rfl h
  | cons b t => rfl

/-- joinSep over an appended last element. -/
theorem joinSep_append_one (sep x : String) :
    ∀ l : List String, l ≠ [] → joinSep sep (l ++ [x]) = joinSep sep l ++ sep ++ x := by
  intro l
  induction l with
  | nil => intro h; exact absurd rfl h
  | cons a t ih =>
    intro _
    cases t with
    | nil => rfl
    | cons b t2 =>
      have h1 : (a :: b :: t2) ++ [x] = a :: ((b :: t2) ++ [x]) := rfl
      rw [h1, joinSep_cons sep a _ (by simp), ih (by simp),
        joinSep_cons sep a (b :: t2) (by simp)]
      simp [String.append_assoc]

/-- Every chunk the packing loop emits is within the budget or is a single
item of the allowed list, provided the separator length matches the overhead
the loop accounts for and the running chunk already satisfies the same
bound. -/
theorem packGo_bound (sep : String) (ov m : Nat) (hsep : sep.length = ov)
    (allowed : List String) :
    ∀ (xs : List String) (cur : String) (curItems : List String),
    (∀ x ∈ xs, x ∈ allowed) →
    (cur = "" ∨ cur.length ≤ m ∨ cur ∈ allowed) →
    ∀ p ∈ packGo sep ov m cur curItems xs, p.1.length ≤ m ∨ p.1 ∈ allowed := by
  intro xs
  induction xs with
  | nil =>
    intro cur curItems _ hcur p hp
    by_cases hc : cur = ""
    · simp [packGo, hc] at hp
    · simp [packGo, hc] at hp
      rcases hcur with h | h | h
      · exact absurd h hc
      · left; rw [hp]; exact h
      · right; rw [hp]; exact h
  | cons x xs ih =>
    intro cur curItems hxs hcur p hp
    rw [show packGo sep ov m cur curItems (x :: xs) =
      if m < cur.length + x.length + ov then
        (cur, curItems) :: packGo sep ov m x [x] xs
      else
        packGo sep ov m (if cur = "" then x else cur ++ sep ++ x) (curItems ++ [x]) xs
      from rfl] at hp
    by_cases hov : m < cur.length + x.length + ov
    · rw [if_pos hov] at hp
      rcases List.mem_cons.mp hp with hp1 | hp2
      · rcases hcur with h | h | h
        · left
          rw [hp1]
          simp only [h]
          rw [show ("" : String).length = 0 from rfl]
          omega
        · left; rw [hp1]; exact h
        · right; rw [hp1]; exact h
      · exact ih x [x] (fun y hy => hxs y (List.mem_cons_of_mem x hy))
          (Or.inr (Or.inr (hxs x (List.mem_cons_self x xs)))) p hp2
    · rw [if_neg hov] at hp
      refine ih _ _ (fun y hy => hxs y (List.mem_cons_of_mem x hy)) ?_ p hp
      by_cases hc : cur = ""
      · rw [if_pos hc]
        exact Or.inr (Or.inr (hxs x (List.mem_cons_self x xs)))
      · rw [if_neg hc]
        refine Or.inr (Or.inl ?_)
        rw [String.length_append, String.length_append, hsep]
        omega

/-- The packing loop loses no item and duplicates none: the item lists of the
emitted chunks concatenate to the running items followed by the remaining
input. -/
theorem packGo_cover (sep : String) (ov m : Nat) :
    ∀ (xs : List String) (cur : String) (curItems : List String),
    (∀ x ∈ xs, ¬ x = "") →
    cur = joinSep sep curItems →
    (cur = "" → curItems = []) →
    ((packGo sep ov m cur curItems xs).map Prod.snd).flatten = curItems ++ xs := by
  intro xs
  induction xs with
  | nil =>
    intro cur curItems _ _ h3
    by_cases hc : cur = ""
    · simp [packGo, hc, h3 hc]
    · simp [packGo, hc]
  | cons x xs ih =>
    intro cur curItems hxs h2 h3
    rw [show packGo sep ov m cur curItems (x :: xs) =
      if m < cur.length + x.length + ov then
        (cur, curItems) :: packGo sep ov m x [x] xs
      else
        packGo sep ov m (if cur = "" then x else cur ++ sep ++ x) (curItems ++ [x]) xs
      from rfl]
    by_cases hov : m < cur.length + x.length + ov
    · rw [if_pos hov]
      have hrec := ih x [x] (fun y hy => hxs y (List.mem_cons_of_mem x hy))
        (by rfl) (fun hx => absurd hx (hxs x (List.mem_cons_self x xs)))
      simp only [List.map_cons, List.flatten_cons, hrec]
      simp
    · rw [if_neg hov]
      by_cases hc : cur = ""
      · rw [if_pos hc]
        have h0 : curItems = [] := h3 hc
        have hrec := ih x (curItems ++ [x])
          (fun y hy => hxs y (List.mem_cons_of_mem x hy))
          (by rw [h0]; rfl)
          (fun hx => absurd hx (hxs x (List.mem_cons_self x xs)))
        rw [hrec]
        simp
      · rw [if_neg hc]
        have hcur_ne : curItems ≠ [] := by
          intro h0
          rw [h0] at h2
          exact hc h2
        have hne2 : cur ++ sep ++ x ≠ "" := by
          intro h0
          have hlen : (cur ++ sep ++ x).length = 0 := by rw [h0]; rfl
          rw [String.length_append, String.length_append] at hlen
          have hcl : cur.length = 0 := by omega
          exact hc ((strLength_eq_zero cur).mp hcl)
        have hrec := ih (cur ++ sep ++ x) (curItems ++ [x])
          (fun y hy => hxs y (List.mem_cons_of_mem x hy))
          (by rw [joinSep_append_one sep x curItems hcur_ne, h2])
          (fun hx => absurd hx hne2)
        rw [hrec]
        simp

/-- Every emitted chunk string is exactly the separator-join of the items
recorded for it. -/
theorem packGo_coherent (sep : String) (ov m : Nat) :
    ∀ (xs : List String) (cur : String) (curItems : List String),
    (∀ x ∈ xs, ¬ x = "") →
    cur = joinSep sep curItems →
    (cur = "" → curItems = []) →
    ∀ p ∈ packGo sep ov m cur curItems xs, p.1 = joinSep sep p.2 := by
  intro xs
  induction xs with
  | nil =>
    intro cur curItems _ h2 _ p hp
    by_cases hc : cur = ""
    · simp [packGo, hc] at hp
    · simp [packGo, hc] at hp
      rw [hp, h2]
  | cons x xs ih =>
    intro cur curItems hxs h2 h3 p hp
    rw [show packGo sep ov m cur curItems (x :: xs) =
      if m < cur.length + x.length + ov then
        (cur, curItems) :: packGo sep ov m x [x] xs
      else
        packGo sep ov m (if cur = "" then x else cur ++ sep ++ x) (curItems ++ [x]) xs
      from rfl] at hp
    by_cases hov : m < cur.length + x.length + ov
    · rw [if_pos hov] at hp
      rcases List.mem_cons.mp hp with hp1 | hp2
      · rw [hp1, h2]
      · exact ih x [x] (fun y hy => hxs y (List.mem_cons_of_mem x hy)) (by rfl)
          (fun hx => absurd hx (hxs x (List.mem_cons_self x xs))) p hp2
    · rw [if_neg hov] at hp
      by_cases hc : cur = ""
      · rw [if_pos hc] at hp
        have h0 : curItems = [] := h3 hc
        exact ih x (curItems ++ [x]) (fun y hy => hxs y (List.mem_cons_of_mem x hy))
          (by rw [h0]; rfl)
          (fun hx => absurd hx (hxs x (List.mem_cons_self x xs))) p hp
      · rw [if_neg hc] at hp
        have hcur_ne : curItems ≠ [] := by
          intro h0
          rw [h0] at h2
          exact hc h2
        have hne2 : cur ++ sep ++ x ≠ "" := by
          intro h0
          have hlen : (cur ++ sep ++ x).length = 0 := by rw [h0]; rfl
          rw [String.length_append, String.length_append] at hlen
          have hcl : cur.length = 0 := by omega
          exact hc ((strLength_eq_zero cur).mp hcl)
        exact ih (cur ++ sep ++ x) (curItems ++ [x])
          (fun y hy => hxs y (List.mem_cons_of_mem x hy))
          (by rw [joinSep_append_one sep x curItems hcur_ne, h2])
          (fun hx => absurd hx hne2) p hp

/-- A rendered record is never the empty string: its Item header alone has
positive length. -/
theorem renderRecord_ne_empty (i : Nat) (r : InvRecord) : ¬ renderRecord i r = "" := by
  intro h
  have hlen : (renderRecord i r).length = 0 := by rw [h]; rfl
  unfold renderRecord at hlen
  rw [String.length_append, String.length_append, String.length_append] at hlen
  have h5 : ("Item " : String).length = 5 := rfl
  omega

/-- No element of a rendered record list is the empty string. -/
theorem renderAll_mem_ne_empty :
    ∀ (data : List InvRecord) (i : Nat) (x : String), x ∈ renderAll i data → ¬ x = "" := by
  intro data
  induction data with
  | nil => intro i x hx; simp [renderAll] at hx
  | cons r rs ih =>
    intro i x hx
    rcases List.mem_cons.mp hx with h | h
    · rw [h]; exact renderRecord_ne_empty i r
    · exact ih (i + 1) x h

/-! ## C4: chunk size bound and determinism -/

/-- C4: every chunk generateChunks produces is within the size budget, except
a chunk that is exactly the rendering of one oversized record (array branch)
or one oversized paragraph (text branch), which is kept whole; the fallback
chunk is always within the budget; and the chunker is a pure function, so
repeated calls on identical input give the identical chunk sequence. -/
theorem generateChunks_bounded :
    (∀ (data : List InvRecord) (m : Nat) (c : String),
      c ∈ generateChunksArray data m →
      c.length ≤ m ∨ (c ∈ renderAll 0 data ∧ m < c.length)) ∧
    (∀ (paragraphs : List String) (m : Nat) (c : String),
      c ∈ generateChunksText paragraphs m →
      c.length ≤ m ∨ (c ∈ paragraphs ∧ m < c.length)) ∧
    (∀ (input : String) (m : Nat) (c : String),
      c ∈ chunkFallback input m → c.length ≤ m) ∧
    (∀ (data : List InvRecord) (m : Nat),
      generateChunksArray data m = generateChunksArray data m) := by
  refine ⟨?_, ?_, ?_, fun _ _ => rfl⟩
  · intro data m c hc
    unfold generateChunksArray generateChunksArrayP at hc
    rcases List.mem_map.mp hc with ⟨p, hp, hpc⟩
    have hb := packGo_bound "\n\n" 2 m rfl (renderAll 0 data) (renderAll 0 data)
      "" [] (fun x hx => hx) (Or.inl rfl) p hp
    by_cases hlen : c.length ≤ m
    · exact Or.inl hlen
    · rcases hb with h | h
      · rw [hpc] at h; exact Or.inl h
      · rw [hpc] at h; exact Or.inr ⟨h, by omega⟩
  · intro paragraphs m c hc
    unfold generateChunksText at hc
    rcases List.mem_map.mp hc with ⟨p, hp, hpc⟩
    have hb := packGo_bound "\n" 1 m rfl paragraphs paragraphs
      "" [] (fun x hx => hx) (Or.inl rfl) p hp
    by_cases hlen : c.length ≤ m
    · exact Or.inl hlen
    · rcases hb with h | h
      · rw [hpc] at h; exact Or.inl h
      · rw [hpc] at h; exact Or.inr ⟨h, by omega⟩
  · intro input m c hc
    simp only [chunkFallback, List.mem_singleton] at hc
    rw [hc]
    exact List.length_take_le m input.data

/-- C4 witness: the single chunk of a one-record upload within a 2000 byte
budget is within the budget. -/
theorem generateChunks_bounded_witness :
    ("Item 1:\nsku: A1" ∈ generateChunksArray [[("sku", "A1")]] 2000) ∧
    (("Item 1:\nsku: A1" : String).length ≤ 2000 ∨
      ("Item 1:\nsku: A1" ∈ renderAll 0 [[("sku", "A1")]] ∧
        2000 < ("Item 1:\nsku: A1" : String).length)) :=
  ⟨by decide,
    generateChunks_bounded.1 [[("sku", "A1")]] 2000 "Item 1:\nsku: A1" (by decide)⟩

/-! ## C5: no record lost, none duplicated -/

/-- C5: the record lists of the chunks of the array branch concatenate to the
full rendered input, in input order, so every record lands in exactly one
chunk; and each chunk string is exactly the two-newline join of its recorded
renderings, so the chunk text carries those records and no others. -/
theorem generateChunks_preserves_records :
    ∀ (data : List InvRecord) (m : Nat),
    ((generateChunksArrayP m (renderAll 0 data)).map Prod.snd).flatten =
      renderAll 0 data ∧
    ∀ p ∈ generateChunksArrayP m (renderAll 0 data), p.1 = joinSep "\n\n" p.2 := by
  intro data m
  constructor
  · exact packGo_cover "\n\n" 2 m (renderAll 0 data) "" []
      (fun x hx => renderAll_mem_ne_empty data 0 x hx) rfl (fun _ => rfl)
  · exact packGo_coherent "\n\n" 2 m (renderAll 0 data) "" []
      (fun x hx => renderAll_mem_ne_empty data 0 x hx) rfl (fun _ => rfl)

/-- C5 witness: a two-record upload is reassembled exactly from its chunk
content, and the concrete chunk is the join of its records. -/
theorem generateChunks_preserves_records_witness :
    ((generateChunksArrayP 2000
        (renderAll 0 [[("sku", "A1")], [("sku", "B2")]])).map Prod.snd).flatten =
      renderAll 0 [[("sku", "A1")], [("sku", "B2")]] ∧
    (("Item 1:\nsku: A1\n\nItem 2:\nsku: B2", ["Item 1:\nsku: A1", "Item 2:\nsku: B2"])
        ∈ generateChunksArrayP 2000 (renderAll 0 [[("sku", "A1")], [("sku", "B2")]])) ∧
    ("Item 1:\nsku: A1\n\nItem 2:\nsku: B2" : String) =
      joinSep "\n\n" ["Item 1:\nsku: A1", "Item 2:\nsku: B2"] :=
  ⟨(generateChunks_preserves_records [[("sku", "A1")], [("sku", "B2")]] 2000).1,
    by decide,
    (generateChunks_preserves_records [[("sku", "A1")], [("sku", "B2")]] 2000).2
      ("Item 1:\nsku: A1\n\nItem 2:\nsku: B2", ["Item 1:\nsku: A1", "Item 2:\nsku: B2"])
      (by decide)⟩

/-! ## Vector store lemmas (C2, C9) -/

/-- Filtering an append by non-membership in its first part leaves exactly the
second part when the whole list has no duplicates. -/
theorem filter_not_mem_append (A B : List Nat) (hnd : (A ++ B).Nodup) :
    ((A ++ B).filter fun x => decide (x ∉ A)) = B := by
  rw [List.filter_append]
  have h1 : A.filter (fun x => decide (x ∉ A)) = [] := by
    rw [List.filter_eq_nil_iff]
    intro a ha
    simp [ha]
  have hdisj : List.Disjoint A B := List.disjoint_of_nodup_append hnd
  have h2 : B.filter (fun x => decide (x ∉ A)) = B := by
    rw [List.filter_eq_self]
    intro a ha
    simp only [decide_eq_true_eq]
    intro hmem
    exact hdisj hmem ha
  rw [h1, h2, List.nil_append]

/-- Deleting the first k fetched ids from a duplicate-free store drops exactly
its first k elements. -/
theorem filter_not_mem_take_of_nodup (l : List Nat) (k : Nat) (hnd : l.Nodup) :
    (l.filter fun x => decide (x ∉ l.take k)) = l.drop k := by
  have key := filter_not_mem_append (l.take k) (l.drop k)
    (by rw [List.take_append_drop]; exact hnd)
  rw [List.take_append_drop] at key
  exact key

/-- Deleting every id of the store empties it. -/
theorem filter_not_mem_self (l : List Nat) :
    (l.filter fun x => decide (x ∉ l)) = [] := by
  rw [List.filter_eq_nil_iff]
  intro a ha
  simp [ha]

/-- The inner delete loop removes exactly the fetched ids from the store,
issues one delete call per started slice of 100 ids, and counts every fetched
id as deleted, for any fuel covering the ids. -/
theorem deleteBatches_spec :
    ∀ (fuel : Nat) (ids store : List Nat) (calls deleted : Nat),
    ids.length ≤ fuel * 100 →
    deleteBatches fuel ids store calls deleted =
      (store.filter (fun x => decide (x ∉ ids)), calls + (ids.length + 99) / 100,
        deleted + ids.length) := by
  intro fuel
  induction fuel with
  | zero =>
    intro ids store calls deleted hlen
    have : ids = [] := List.length_eq_zero.mp (by omega)
    subst this
    simp [deleteBatches]
  | succ f ih =>
    intro ids store calls deleted hlen
    cases ids with
    | nil => simp [deleteBatches]
    | cons i t =>
      rw [show deleteBatches (f + 1) (i :: t) store calls deleted =
        deleteBatches f ((i :: t).drop 100)
          (store.filter fun x => decide (x ∉ (i :: t).take 100))
          (calls + 1) (deleted + ((i :: t).take 100).length) from rfl]
      have hlen2 : ((i :: t).drop 100).length ≤ f * 100 := by
        rw [List.length_drop]
        simp only [List.length_cons] at hlen ⊢
        omega
      rw [ih _ _ _ _ hlen2]
      have htd : (i :: t).take 100 ++ (i :: t).drop 100 = i :: t :=
        List.take_append_drop 100 (i :: t)
      refine congrArg₂ _ ?_ (congrArg₂ _ ?_ ?_)
      · rw [List.filter_filter]
        refine List.filter_congr ?_
        intro x _
        generalize hA : List.take 100 (i :: t) = A at htd ⊢
        generalize hB : List.drop 100 (i :: t) = B at htd ⊢
        rw [← htd]
        by_cases hxA : x ∈ A <;> by_cases hxB : x ∈ B <;> simp [hxA, hxB]
      · rw [List.length_drop]
        simp only [List.length_cons]
        omega
      · rw [List.length_drop, List.length_take]
        simp only [List.length_cons]
        omega

/-- One full round of the clear loop on a duplicate-free store of at least
1000 ids: a query fetches 1000 ids, 10 delete calls remove them, a delay is
slept, and the loop continues on the rest. -/
theorem clearLoop_step_full (fuel : Nat) (store : List Nat) (q c d w : Nat)
    (hnd : store.Nodup) (hlen : 1000 ≤ store.length) :
    clearLoop (fuel + 1) store q c d w =
      clearLoop fuel (store.drop 1000) (q + 1) (c + 10) (d + 1000) (w + 1) := by
  have hvlen : (store.take 1000).length = 1000 := by
    rw [List.length_take]
    omega
  rw [show clearLoop (fuel + 1) store q c d w =
    (let vectors := store.take 1000
    if vectors.length = 0 then ⟨q + 1, c, d, w, store⟩
    else
      let r := deleteBatches 10 vectors store c d
      if vectors.length < 1000 then ⟨q + 1, r.2.1, r.2.2, w, r.1⟩
      else clearLoop fuel r.1 (q + 1) r.2.1 r.2.2 (w + 1)) from rfl]
  simp only [hvlen]
  rw [if_neg (by omega), if_neg (by omega)]
  rw [deleteBatches_spec 10 (store.take 1000) store c d (by rw [hvlen])]
  rw [filter_not_mem_take_of_nodup store 1000 hnd]
  rw [hvlen]

/-- The final round of the clear loop: fewer than 1000 ids remain, so the
query returns all of them, they are deleted in slices of 100, and the loop
exits with an empty store and no further delay. -/
theorem clearLoop_step_last (fuel : Nat) (store : List Nat) (q c d w : Nat)
    (hpos : 0 < store.length) (hlt : store.length < 1000) :
    clearLoop (fuel + 1) store q c d w =
      ⟨q + 1, c + (store.length + 99) / 100, d + store.length, w, []⟩ := by
  have htake : store.take 1000 = store := List.take_of_length_le (by omega)
  rw [show clearLoop (fuel + 1) store q c d w =
    (let vectors := store.take 1000
    if vectors.length = 0 then ⟨q + 1, c, d, w, store⟩
    else
      let r := deleteBatches 10 vectors store c d
      if vectors.length < 1000 then ⟨q + 1, r.2.1, r.2.2, w, r.1⟩
      else clearLoop fuel r.1 (q + 1) r.2.1 r.2.2 (w + 1)) from rfl]
  simp only [htake]
  rw [if_neg (by omega), if_pos (by omega)]
  rw [deleteBatches_spec 10 store store c d (by omega)]
  rw [filter_not_mem_self store]

/-- The full run of clearAllEmbeddings on a duplicate-free store of 2500 ids:
3 query rounds, 25 delete calls, 2500 deletions, 2 inter-round delays, empty
store at the end. -/
theorem clearAllStore_2500_run (store : List Nat) (hnd : store.Nodup)
    (hlen : store.length = 2500) :
    clearAllStore store = ⟨3, 25, 2500, 2, []⟩ := by
  unfold clearAllStore
  rw [hlen]
  rw [show (2500 : Nat) + 1 = 2500 + 1 from rfl]
  rw [clearLoop_step_full 2500 store 0 0 0 0 hnd (by omega)]
  have hnd1 : (store.drop 1000).Nodup :=
    List.Nodup.sublist (List.drop_sublist 1000 store) hnd
  have hlen1 : (store.drop 1000).length = 1500 := by
    rw [List.length_drop, hlen]
  rw [show (2500 : Nat) = 2499 + 1 from rfl]
  rw [clearLoop_step_full 2499 (store.drop 1000) 1 10 1000 1 hnd1 (by omega)]
  have hnd2 : ((store.drop 1000).drop 1000).Nodup :=
    List.Nodup.sublist (List.drop_sublist 1000 (store.drop 1000)) hnd1
  have hlen2 : ((store.drop 1000).drop 1000).length = 500 := by
    rw [List.length_drop, hlen1]
  rw [show (2499 : Nat) = 2498 + 1 from rfl]
  rw [clearLoop_step_last 2498 ((store.drop 1000).drop 1000) 2 20 2000 2
    (by omega) (by omega)]
  rw [hlen2]

/-- Whatever the store holds, the clear loop ends with an empty store once
its fuel exceeds the store size; the loop burns fuel only on rounds that
remove at least one id, so clearAllStore always terminates through its own
exit condition. -/
theorem clearLoop_store_empty :
    ∀ (fuel : Nat) (store : List Nat) (q c d w : Nat), store.length < fuel →
    (clearLoop fuel store q c d w).store = [] := by
  intro fuel
  induction fuel with
  | zero => intro store q c d w h; omega
  | succ f ih =>
    intro store q c d w h
    rw [show clearLoop (f + 1) store q c d w =
      (let vectors := store.take 1000
      if vectors.length = 0 then ⟨q + 1, c, d, w, store⟩
      else
        let r := deleteBatches 10 vectors store c d
        if vectors.length < 1000 then ⟨q + 1, r.2.1, r.2.2, w, r.1⟩
        else clearLoop f r.1 (q + 1) r.2.1 r.2.2 (w + 1)) from rfl]
    simp only []
    by_cases h0 : (store.take 1000).length = 0
    · rw [if_pos h0]
      have hz : store.length = 0 := by
        rw [List.length_take] at h0
        omega
      have hs : store = [] := List.length_eq_zero.mp hz
      simp [hs]
    · rw [if_neg h0]
      by_cases h1 : (store.take 1000).length < 1000
      · rw [if_pos h1]
        have hlt : store.length < 1000 := by
          rw [List.length_take] at h0 h1
          omega
        have htake : store.take 1000 = store := List.take_of_length_le (by omega)
        rw [htake, deleteBatches_spec 10 store store c d (by omega)]
        exact filter_not_mem_self store
      · rw [if_neg h1]
        have hge : 1000 ≤ store.length := by
          rw [List.length_take] at h1
          omega
        rw [deleteBatches_spec 10 (store.take 1000) store c d
          (by rw [List.length_take]; omega)]
        dsimp only
        apply ih
        cases store with
        | nil => simp at hge
        | cons s rest =>
          have hmem : s ∈ (s :: rest).take 1000 := by
            rw [show (1000 : Nat) = 999 + 1 from rfl, List.take_succ_cons]
            exact List.mem_cons_self s _
          have hfc : (s :: rest).filter (fun x => decide (x ∉ (s :: rest).take 1000)) =
              rest.filter (fun x => decide (x ∉ (s :: rest).take 1000)) := by
            rw [List.filter_cons]
            simp [hmem]
          rw [hfc]
          have hle := List.length_filter_le
            (fun x => decide (x ∉ (s :: rest).take 1000)) rest
          simp only [List.length_cons] at h
          omega

/-! ## C2: paginated deletion -/

/-- C2: on a store of 2500 distinct vectors, clearAllEmbeddings issues 3
query-then-delete rounds (each fetching at most 1000 ids), 25 delete calls of
at most 100 ids each, sleeps between full rounds, and terminates with 0
vectors remaining, having deleted all 2500. -/
theorem clearAllEmbeddings_paginated_2500 (store : List Nat) (hnd : store.Nodup)
    (hlen : store.length = 2500) :
    (clearAllStore store).queries = 3 ∧
    3 ≤ (clearAllStore store).deleteCalls ∧
    (clearAllStore store).deleteCalls = 25 ∧
    (clearAllStore store).deleted = 2500 ∧
    1 ≤ (clearAllStore store).delays ∧
    (clearAllStore store).store = [] := by
  have h := clearAllStore_2500_run store hnd hlen
  rw [h]
  exact ⟨rfl, by norm_num, rfl, rfl, by norm_num, rfl⟩

/-- C2 witness: the store holding ids 0..2499. -/
theorem clearAllEmbeddings_paginated_2500_witness :
    (List.range 2500).Nodup ∧
    (clearAllStore (List.range 2500)).queries = 3 ∧
    (clearAllStore (List.range 2500)).store = [] :=
  ⟨List.nodup_range 2500,
    (clearAllEmbeddings_paginated_2500 (List.range 2500) (List.nodup_range 2500)
      (by simp only [List.length_range])).1,
    (clearAllEmbeddings_paginated_2500 (List.range 2500) (List.nodup_range 2500)
      (by simp only [List.length_range])).2.2.2.2.2⟩

/-! ## C9: ingestion is a destructive replace -/

/-- C9: processInventoryData clears the whole store before chunking or
embedding anything, so clearAllEmbeddings leaves an empty store for every
prior content, and the store after a successful upload holds exactly the new
entries; any pre-existing vector still present afterwards is necessarily one
of the new entries. -/
theorem processInventoryData_destructive_replace :
    ∀ (pre entries : List Nat),
    (clearAllStore pre).store = [] ∧
    processInventoryStoreEffect pre entries = entries ∧
    (∀ v, v ∈ pre → v ∈ processInventoryStoreEffect pre entries → v ∈ entries) := by
  intro pre entries
  have hclear : (clearAllStore pre).store = [] :=
    clearLoop_store_empty (pre.length + 1) pre 0 0 0 0 (by omega)
  have heff : processInventoryStoreEffect pre entries = entries := by
    unfold processInventoryStoreEffect upsertStore
    rw [hclear]
    simp
  refine ⟨hclear, heff, fun v _ hv => ?_⟩
  rw [heff] at hv
  exact hv

/-- C9 witness: a store holding vector 5 is cleared and replaced; the
surviving 5 is the freshly upserted entry. -/
theorem processInventoryData_destructive_replace_witness :
    ((5 : Nat) ∈ ([5] : List Nat)) ∧
    ((5 : Nat) ∈ processInventoryStoreEffect [5] [5]) ∧
    ((5 : Nat) ∈ ([5] : List Nat)) :=
  ⟨by decide, by decide,
    (processInventoryData_destructive_replace [5] [5]).2.2 5 (by decide) (by decide)⟩

/-! ## C6: the stale-status read path -/

/-- releaseLock only touches the lock file: the status file and the clock are
unchanged. -/
theorem releaseLock_preserves (u : String) (s : CoordState) :
    ((releaseLock u s).2).statusFile = s.statusFile ∧
    ((releaseLock u s).2).now = s.now := by
  unfold releaseLock
  cases h : s.lockFile with
  | none => exact ⟨rfl, rfl⟩
  | some l =>
    by_cases hu : l.1 = u
    · simp [hu]
    · simp [hu]

/-- On a stale processing status with a truthy (non-zero) startTime, neither
getProcessingStatus nor setProcessingError ever returns: setProcessingError
re-reads the status through getProcessingStatus before writing anything, the
file still holds the stale processing document, so the timeout branch fires
again and the pair recurses forever, burning any amount of fuel. -/
theorem coordStaleAux :
    ∀ (f : Nat),
    (∀ (s : CoordState) (st : StatusDoc) (t : Nat),
      s.statusFile = some st → st.isProcessing = true → st.startTime = some t →
      t ≠ 0 → PROCESSING_TIMEOUT < s.now - t →
      coordF f CoordCall.getStatus s = none) ∧
    (∀ (msg : String) (s : CoordState) (st : StatusDoc) (t : Nat),
      s.statusFile = some st → st.isProcessing = true → st.startTime = some t →
      t ≠ 0 → PROCESSING_TIMEOUT < s.now - t →
      coordF f (CoordCall.setError msg) s = none) := by
  intro f
  induction f with
  | zero => exact ⟨fun _ _ _ _ _ _ _ _ => rfl, fun _ _ _ _ _ _ _ _ _ => rfl⟩
  | succ f ih =>
    constructor
    · intro s st t hst hp ht ht0 hstale
      simp only [coordF, hst, ht, hp, true_and, if_pos (And.intro ht0 hstale)]
      cases hu : st.userId with
      | none =>
        simp only [hu]
        exact ih.2 _ s st t hst hp ht ht0 hstale
      | some u =>
        simp only [hu]
        have hpres := releaseLock_preserves u s
        refine ih.2 _ ((releaseLock u s).2) st t ?_ hp ht ht0 ?_
        · rw [hpres.1, hst]
        · rw [hpres.2]; exact hstale
    · intro msg s st t hst hp ht ht0 hstale
      simp only [coordF]
      rw [ih.1 s st t hst hp ht ht0 hstale]

/-- A processing status that fails the timeout guard, because it is within
the timeout or because its startTime is the falsy 0, is returned unchanged
by getProcessingStatus, with no state change. -/
theorem coordF_fresh (f : Nat) (s : CoordState) (st : StatusDoc) (t : Nat)
    (hst : s.statusFile = some st) (ht : st.startTime = some t)
    (hfresh : ¬(st.isProcessing = true ∧ t ≠ 0 ∧ PROCESSING_TIMEOUT < s.now - t)) :
    coordF (f + 1) CoordCall.getStatus s = some (st, s) := by
  simp only [coordF, hst, ht, if_neg hfresh]

/-- C6: reading a persisted status that is processing with a truthy startTime
more than 30 minutes in the past does not transition it to an errored
document and does not return it: the read diverges, because
getProcessingStatus calls setProcessingError, which re-reads the still-stale
status through getProcessingStatus before performing its write.  No fuel
suffices for the call to return.  (A startTime of exactly 0 is falsy in the
source's guard and skips the timeout branch instead, covered by
coordF_fresh; Date.now() timestamps are positive.) -/
theorem getProcessingStatus_stale_diverges :
    ∀ (f : Nat) (s : CoordState) (st : StatusDoc) (t : Nat),
    s.statusFile = some st → st.isProcessing = true → st.startTime = some t →
    t ≠ 0 → PROCESSING_TIMEOUT < s.now - t →
    coordF f CoordCall.getStatus s = none :=
  fun f s st t hst hp ht ht0 hstale => (coordStaleAux f).1 s st t hst hp ht ht0 hstale

/-- C6 witness: a status written at time 1 read 31 minutes later never
returns, at the concrete fuel 5. -/
theorem getProcessingStatus_stale_diverges_witness :
    (({ statusFile := some ⟨true, some 1, none, none, 1, some "user_1", some true⟩,
        lockFile := some ("user_1", 1), now := 1860001 } : CoordState).statusFile =
      some ⟨true, some 1, none, none, 1, some "user_1", some true⟩) ∧
    (1 : Nat) ≠ 0 ∧
    PROCESSING_TIMEOUT < 1860001 - 1 ∧
    coordF 5 CoordCall.getStatus
      { statusFile := some ⟨true, some 1, none, none, 1, some "user_1", some true⟩,
        lockFile := some ("user_1", 1), now := 1860001 } = none :=
  ⟨rfl, by decide, by decide,
    getProcessingStatus_stale_diverges 5 _
      ⟨true, some 1, none, none, 1, some "user_1", some true⟩ 1 rfl rfl rfl
      (by decide) (by decide)⟩
